import Mathlib

/-!
Verification development for the CSA clinical-summarizer job system.

The model below is a shallow embedding of the Python sources:
  * `app/queue.py`  — Redis-backed job store / result store operations
    (`enqueue_job`, `get_job_status`, `update_job_status`);
  * `app/worker.py` — `process_clinical_job`, with the transcription and
    inference collaborators abstracted as an `Agent` record of functions;
  * `app/main.py`   — the `/submit` and `/result/{job_id}` handlers
    (`submit_job`, `get_result`), stripped of HTTP plumbing;
  * `app/fhir.py`   — `clinical_summary_to_fhir` / `fhir_to_clinical_summary`
    over a small JSON universe `JVal`.

Redis is modelled as two association lists (job hashes and result strings)
whose entries carry an optional absolute expiry instant.  Time is a `Nat`
passed explicitly to every operation (the Python code uses wall-clock
`datetime.now()` and Redis TTLs; `timedelta(hours=24)` becomes the constant
`ttlSeconds = 86400`).  Each Redis command (`hset`, `setex`, `expire`,
`exists`/`hgetall`/`get`) is an individually atomic step, exactly as in
Redis; composite operations are their source-order composition, so
intermediate states of a composite operation are genuinely observable
states of the store.
-/

/-- Python truthiness of an optional string (`None` and `""` are falsy). -/
def truthyStr : Option String → Bool
  | some s => s ≠ ""
  | none => false

/-- Python truthiness of an optional dict (`None` and `{}` are falsy). -/
def truthyDict : Option (List (String × String)) → Bool
  | some d => !d.isEmpty
  | none => false

/-- Python truthiness of an optional int (`None` and `0` are falsy). -/
def truthyInt : Option Int → Bool
  | some n => n ≠ 0
  | none => false

/-- `job_data.get(k) or ""` — the field value, with `None` (and `""`)
collapsing to `""`. -/
def pyOr : Option String → String
  | some s => s
  | none => ""

/-- Lookup in an association list keyed by strings (first binding wins, as
for a Python/Redis map where keys are unique by construction). -/
def lookupA {α : Type} : List (String × α) → String → Option α
  | [], _ => none
  | (k, v) :: rest, k' => if k = k' then some v else lookupA rest k'

/-- Remove every binding of key `k`. -/
def eraseAllA {α : Type} : List (String × α) → String → List (String × α)
  | [], _ => []
  | (k, v) :: rest, k' => if k = k' then eraseAllA rest k' else (k, v) :: eraseAllA rest k'

/-- Set key `k` to `v` (replacing any previous binding). -/
def setA {α : Type} (l : List (String × α)) (k : String) (v : α) : List (String × α) :=
  (k, v) :: eraseAllA l k

/-! ## The Redis store model (`app/queue.py` state) -/

/-- The fields of the Redis hash `job:{job_id}`; a field is `none` when the
hash does not contain it.  `created_at` / `completed_at` hold instants
(`datetime.now().isoformat()` in the source). -/
structure JobHash where
  job_id : Option String := none
  status : Option String := none
  created_at : Option Nat := none
  text : Option String := none
  audio_filename : Option String := none
  audio_url : Option String := none
  completed_at : Option Nat := none
  error : Option String := none
deriving DecidableEq, Repr

/-- The all-absent hash: what `hset` starts from when the key is missing. -/
def emptyHash : JobHash := {}

/-- A stored value together with its absolute expiry instant
(`none` = no TTL, the key persists). -/
structure Entry (α : Type) where
  val : α
  expiry : Option Nat
deriving DecidableEq, Repr

/-- Whether a key with the given expiry is still readable at `now`.
(Redis treats an expired key exactly like an absent one.) -/
def aliveAt (now : Nat) : Option Nat → Bool
  | none => true
  | some t => decide (now < t)

/-- The whole Redis state: job hashes keyed by job id, and result strings
(`result:{job_id}`, here kept as the decoded dict) keyed by job id. -/
structure Store where
  jobs : List (String × Entry JobHash)
  results : List (String × Entry (List (String × String)))
deriving DecidableEq, Repr

def emptyStore : Store := ⟨[], []⟩

/-- `timedelta(hours=24)` in seconds — the TTL used for both stores. -/
def ttlSeconds : Nat := 86400

/-- One `redis_client.hset(job_key, ...)` command: mutate the live hash
through `f`, or — when the key is absent or expired — create a fresh hash
(with no TTL) holding only the written fields. -/
def hsetJob (s : Store) (now : Nat) (id : String) (f : JobHash → JobHash) : Store :=
  match lookupA s.jobs id with
  | some en =>
      if aliveAt now en.expiry then
        { s with jobs := setA s.jobs id ⟨f en.val, en.expiry⟩ }
      else
        { s with jobs := setA s.jobs id ⟨f emptyHash, none⟩ }
  | none => { s with jobs := setA s.jobs id ⟨f emptyHash, none⟩ }

/-- `redis_client.expire(job_key, timedelta(hours=24))`: set the TTL of a
live key; a no-op on an absent or expired key. -/
def expireJob (s : Store) (now : Nat) (id : String) : Store :=
  match lookupA s.jobs id with
  | some en =>
      if aliveAt now en.expiry then
        { s with jobs := setA s.jobs id ⟨en.val, some (now + ttlSeconds)⟩ }
      else s
  | none => s

/-- `redis_client.setex(result_key, timedelta(hours=24), json.dumps(result))`:
unconditionally store the value with a fresh TTL from `now`. -/
def setResult (s : Store) (now : Nat) (id : String) (r : List (String × String)) : Store :=
  { s with results := setA s.results id ⟨r, some (now + ttlSeconds)⟩ }

/-- `redis_client.get(result_key)` followed by `json.loads`: the stored
dict, if the key is live. -/
def getResult (s : Store) (now : Nat) (id : String) : Option (List (String × String)) :=
  match lookupA s.results id with
  | some en => if aliveAt now en.expiry then some en.val else none
  | none => none

/-- `redis_client.exists(job_key)` / `hgetall(job_key)`: the live hash. -/
def aliveJob (s : Store) (now : Nat) (id : String) : Option JobHash :=
  match lookupA s.jobs id with
  | some en => if aliveAt now en.expiry then some en.val else none
  | none => none

/-! ## `app/queue.py` operations -/

/-- `enqueue_job(job_data)` with the `uuid.uuid4()` call abstracted into the
`job_id` argument (id generation is the only nondeterminism): build the
`job_metadata` mapping, `hset` it, `expire` the key to 24h, and enqueue the
task (the RQ enqueue itself touches no modelled state).  Returns the id and
the new store. -/
def enqueue_job (s : Store) (now : Nat) (job_id : String)
    (text audio_filename audio_url : Option String) : String × Store :=
  let s1 := hsetJob s now job_id (fun h =>
    { h with
      job_id := some job_id
      status := some "pending"
      created_at := some now
      text := some (pyOr text)
      audio_filename := some (pyOr audio_filename)
      audio_url := some (pyOr audio_url) })
  let s2 := expireJob s1 now job_id
  (job_id, s2)

/-- The dict returned by `get_job_status`: the job hash, plus the decoded
result under `clinical_summary` when it was attached. -/
structure JobView where
  hash : JobHash
  clinical_summary : Option (List (String × String))
deriving DecidableEq, Repr

/-- `get_job_status(job_id)`: `None` when the key is absent/expired;
otherwise the hash, with the result attached iff the status field reads
`"completed"` and the result key is live (a stored JSON dict is never the
empty string, so Python's `if result_data:` is exactly presence). -/
def get_job_status (s : Store) (now : Nat) (job_id : String) : Option JobView :=
  match aliveJob s now job_id with
  | none => none
  | some h =>
      if h.status = some "completed" then
        some ⟨h, getResult s now job_id⟩
      else some ⟨h, none⟩

/-- `update_job_status(job_id, status, result=None, error=None)`, as the
source-order composition of its Redis commands:
1. `hset(job_key, "status", status)` — unconditional;
2. if `result` is truthy: `setex(result_key, 24h, json.dumps(result))`
   then `hset(job_key, "completed_at", now)`;
3. if `error` is truthy: `hset(job_key, "error", error)` then
   `hset(job_key, "completed_at", now)`. -/
def update_job_status (s : Store) (now : Nat) (job_id status : String)
    (result : Option (List (String × String))) (error : Option String) : Store :=
  let s1 := hsetJob s now job_id (fun h => { h with status := some status })
  let s2 :=
    if truthyDict result then
      hsetJob (setResult s1 now job_id (result.getD [])) now job_id
        (fun h => { h with completed_at := some now })
    else s1
  if truthyStr error then
    hsetJob (hsetJob s2 now job_id (fun h => { h with error := error })) now job_id
      (fun h => { h with completed_at := some now })
  else s2

/-! ## `app/worker.py` -/

/-- The collaborators of `ClinicalAgent` consumed by the worker:
`transcribe_audio` and `process_clinical_text` (the latter already
flattened through `model_dump()` into the dict the worker stores).
`Except.error e` models a raised exception with message `str(e) = e`. -/
structure Agent where
  transcribe : String → Except String String
  process : String → Except String (List (String × String))

/-- The message built by the worker's `except` handler:
`f"Error procesando trabajo: {str(e)}\n{traceback.format_exc()}"`, with the
traceback text abstracted into the parameter `tb`. -/
def errMsg (e tb : String) : String :=
  "Error procesando trabajo: " ++ e ++ "\n" ++ tb

/-- `process_clinical_job(job_id)`.  The first component is the function's
outcome: `Except.ok result_dict` for a normal return, `Except.error m` when
an exception with handler message `m` escapes (the handler ends in a bare
`raise`).  The second component is the store after the run.
Control flow, mirroring the source:
1. `get_job_status(job_id)`; a falsy result raises
   `ValueError(f"Trabajo {job_id} no encontrado")`;
2. `update_job_status(job_id, "processing")`;
3. if `audio_filename` is truthy and `text` falsy,
   `text = agent.transcribe_audio(audio_filename)`;
4. a falsy `text` raises `ValueError("No se proporcionó texto ni audio válido")`;
5. `clinical_summary = agent.process_clinical_text(text)`;
6. `update_job_status(job_id, "completed", result=result_dict)`; return.
Any exception is caught by the handler, which calls
`update_job_status(job_id, "failed", error=error_message)` on the store as
it stands at the raise point and then re-raises. -/
def process_clinical_job (ag : Agent) (tb : String) (s : Store) (now : Nat)
    (job_id : String) : Except String (List (String × String)) × Store :=
  match get_job_status s now job_id with
  | none =>
      let m := errMsg ("Trabajo " ++ job_id ++ " no encontrado") tb
      (Except.error m, update_job_status s now job_id "failed" none (some m))
  | some view =>
      let s1 := update_job_status s now job_id "processing" none none
      let text0 := view.hash.text
      let af := view.hash.audio_filename
      let tres : Except String (Option String) :=
        if truthyStr af && !truthyStr text0 then
          match ag.transcribe (pyOr af) with
          | Except.ok t => Except.ok (some t)
          | Except.error e => Except.error e
        else Except.ok text0
      match tres with
      | Except.error e =>
          let m := errMsg e tb
          (Except.error m, update_job_status s1 now job_id "failed" none (some m))
      | Except.ok text1 =>
          if !truthyStr text1 then
            let m := errMsg "No se proporcionó texto ni audio válido" tb
            (Except.error m, update_job_status s1 now job_id "failed" none (some m))
          else
            match ag.process (pyOr text1) with
            | Except.error e =>
                let m := errMsg e tb
                (Except.error m, update_job_status s1 now job_id "failed" none (some m))
            | Except.ok result_dict =>
                (Except.ok result_dict,
                 update_job_status s1 now job_id "completed" (some result_dict) none)

/-! ## `app/main.py` handlers -/

/-- Outcome of `POST /submit`. -/
inductive SubmitOutcome where
  | accepted (job_id : String) (status : String)
  | invalidInput
deriving DecidableEq, Repr

/-- `submit_job(text, audio_file)`, with the upload modelled by its filename
and the fresh uuid by `fresh_id`.  Rejects with HTTP 400 (`InvalidInput`)
iff `not text and not audio_file`; otherwise it builds `job_data` (the text
only when truthy, the filename when a file is present; the `audio_size`
field it also stores is never read by `enqueue_job` and is elided) and
enqueues.  On acceptance the response carries the id and status
`"pending"`. -/
def submit_job (s : Store) (now : Nat) (fresh_id : String)
    (text : Option String) (audio_file : Option String) : SubmitOutcome × Store :=
  if !truthyStr text && audio_file.isNone then
    (SubmitOutcome.invalidInput, s)
  else
    let jtext := if truthyStr text then text else none
    let r := enqueue_job s now fresh_id jtext audio_file none
    (SubmitOutcome.accepted r.1 "pending", r.2)

/-- The body of a successful `GET /result/{job_id}` response. -/
structure ResultResponse where
  job_id : String
  status : String
  clinical_summary : Option (List (String × String))
  error : Option String
  created_at : Option Nat
  completed_at : Option Nat
deriving DecidableEq, Repr

/-- Outcome of `GET /result/{job_id}`: 200 with a body, 404, or 500 (the
generic handler, reached e.g. when `JobStatus(...)` raises on a status
string outside the enum). -/
inductive GetResultOutcome where
  | ok (r : ResultResponse)
  | notFound
  | internalError
deriving DecidableEq, Repr

/-- The `JobStatus` enum values of `app/models.py`. -/
def validStatuses : List String := ["pending", "processing", "completed", "failed"]

/-- `get_result(job_id)`: 404 when `get_job_status` is falsy; then
`status = JobStatus(job_data.get("status", "pending"))` (a value outside
the enum raises, caught as a 500); the response carries the hash fields,
with the clinical summary attached only when the status is `completed` and
`get_job_status` attached one. -/
def get_result (s : Store) (now : Nat) (job_id : String) : GetResultOutcome :=
  match get_job_status s now job_id with
  | none => GetResultOutcome.notFound
  | some v =>
      let st := v.hash.status.getD "pending"
      if validStatuses.contains st then
        GetResultOutcome.ok
          { job_id := job_id
            status := st
            clinical_summary := if st = "completed" then v.clinical_summary else none
            error := v.hash.error
            created_at := v.hash.created_at
            completed_at := v.hash.completed_at }
      else GetResultOutcome.internalError

/-! ## `app/fhir.py` -/

/-- The `ClinicalSummary` / `Symptom` Pydantic schemas of `app/models.py`
(the `created_at` timestamp, defaulted at construction and never mapped by
the FHIR adapter, is elided). -/
structure Symptom where
  name : String
  duration : Option String := none
  severity : Option String := none
  description : Option String := none
deriving DecidableEq, Repr

structure ClinicalSummary where
  patient_age : Option Int := none
  patient_gender : Option String := none
  symptoms : List Symptom := []
  risk_factors : List String := []
  relevant_conditions : List String := []
  narrative_summary : String
deriving DecidableEq, Repr

/-- The JSON-ish universe of the `Dict[str, Any]` values `fhir.py`
manipulates. -/
inductive JVal where
  | str : String → JVal
  | int : Int → JVal
  | arr : List JVal → JVal
  | obj : List (String × JVal) → JVal
deriving Repr

/-- `d.get(k)` on a dict (`None` on non-dicts, which would raise in
Python; only dicts are ever accessed in the adapter). -/
def jget : JVal → String → Option JVal
  | JVal.obj kvs, k => lookupA kvs k
  | _, _ => none

/-- `d.get(k, default)`. -/
def jgetD (v : JVal) (k : String) (d : JVal) : JVal :=
  (jget v k).getD d

/-- `d.get(k)` when a string is expected (`None` otherwise). -/
def jgetStr (v : JVal) (k : String) : Option String :=
  match jget v k with
  | some (JVal.str s) => some s
  | _ => none

/-- `d.get(k, "")` when a string is expected. -/
def jgetStrD (v : JVal) (k : String) : String :=
  (jgetStr v k).getD ""

/-- `d.get(k)` when an int is expected. -/
def jgetInt (v : JVal) (k : String) : Option Int :=
  match jget v k with
  | some (JVal.int n) => some n
  | _ => none

/-- `bundle.get("entry", [])` (and any list-valued `.get`). -/
def jgetList (v : JVal) (k : String) : List JVal :=
  match jget v k with
  | some (JVal.arr l) => l
  | _ => []

/-- Whether the first list is an initial segment of the second. -/
def startsWithChars : List Char → List Char → Bool
  | [], _ => true
  | _ :: _, [] => false
  | n :: ns, h :: hs => n == h && startsWithChars ns hs

/-- Whether the first list occurs contiguously inside the second. -/
def containsChars (needle : List Char) : List Char → Bool
  | [] => startsWithChars needle []
  | h :: hs => startsWithChars needle (h :: hs) || containsChars needle hs

/-- Python's substring test `needle in hay` (used by the parser with the
needles `"age"`, `"duration"`, `"severity"`). -/
def pyIn (needle hay : String) : Bool :=
  containsChars needle.toList hay.toList

/-- The FHIR gender mapping: lower-case, then the
masculino/femenino/m/f table with the lower-cased input as fallback. -/
def genderMap (g : String) : String :=
  let l := g.toLower
  if l = "masculino" then "male"
  else if l = "femenino" then "female"
  else if l = "m" then "male"
  else if l = "f" then "female"
  else l

/-- The `Patient` entry (built only when `patient_age or patient_gender`
is truthy): base fields, an age extension when the age is truthy, a
`gender` key when the gender is truthy. -/
def patientEntry (cl : ClinicalSummary) : JVal :=
  let base : List (String × JVal) :=
    [("resourceType", JVal.str "Patient"), ("id", JVal.str "patient-1")]
  let withAge := base ++
    (if truthyInt cl.patient_age then
      [("extension", JVal.arr [JVal.obj
        [("url", JVal.str "http://example.org/fhir/StructureDefinition/age"),
         ("valueInteger", JVal.int (cl.patient_age.getD 0))]])]
     else [])
  let withGender := withAge ++
    (if truthyStr cl.patient_gender then
      [("gender", JVal.str (genderMap (pyOr cl.patient_gender)))]
     else [])
  JVal.obj [("resource", JVal.obj withGender)]

/-- The `Condition` entry for `relevant_conditions[idx]`. -/
def condEntry (idx : Nat) (condition : String) : JVal :=
  JVal.obj [("resource", JVal.obj
    [("resourceType", JVal.str "Condition"),
     ("id", JVal.str ("condition-" ++ toString (idx + 1))),
     ("code", JVal.obj [("text", JVal.str condition)]),
     ("subject", JVal.obj [("reference", JVal.str "Patient/patient-1")]),
     ("clinicalStatus", JVal.obj [("coding", JVal.arr [JVal.obj
       [("system", JVal.str "http://terminology.hl7.org/CodeSystem/condition-clinical"),
        ("code", JVal.str "active"),
        ("display", JVal.str "Active")]])])])]

/-- `for idx, condition in enumerate(relevant_conditions)` starting at `idx`. -/
def condEntries : Nat → List String → List JVal
  | _, [] => []
  | i, c :: rest => condEntry i c :: condEntries (i + 1) rest

/-- The `Observation` entry for `symptoms[idx]`: the base fields with
`valueString = symptom.description or symptom.name`, then an `extension`
list holding a duration extension when the duration is truthy and a
severity extension appended when the severity is truthy. -/
def obsEntry (idx : Nat) (sym : Symptom) : JVal :=
  let exts : List JVal :=
    (if truthyStr sym.duration then
      [JVal.obj [("url", JVal.str "http://example.org/fhir/StructureDefinition/duration"),
                 ("valueString", JVal.str (pyOr sym.duration))]]
     else []) ++
    (if truthyStr sym.severity then
      [JVal.obj [("url", JVal.str "http://example.org/fhir/StructureDefinition/severity"),
                 ("valueString", JVal.str (pyOr sym.severity))]]
     else [])
  JVal.obj [("resource", JVal.obj (
    [("resourceType", JVal.str "Observation"),
     ("id", JVal.str ("observation-" ++ toString (idx + 1))),
     ("status", JVal.str "final"),
     ("code", JVal.obj [("text", JVal.str sym.name)]),
     ("subject", JVal.obj [("reference", JVal.str "Patient/patient-1")]),
     ("valueString", JVal.str
       (if truthyStr sym.description then pyOr sym.description else sym.name))] ++
    (if exts.isEmpty then [] else [("extension", JVal.arr exts)])))]

/-- `for idx, symptom in enumerate(symptoms)` starting at `idx`. -/
def obsEntries : Nat → List Symptom → List JVal
  | _, [] => []
  | i, sym :: rest => obsEntry i sym :: obsEntries (i + 1) rest

/-- The single `ClinicalImpression` entry: the narrative summary plus one
finding reference per symptom. -/
def impressionEntry (cl : ClinicalSummary) : JVal :=
  JVal.obj [("resource", JVal.obj
    [("resourceType", JVal.str "ClinicalImpression"),
     ("id", JVal.str "impression-1"),
     ("status", JVal.str "completed"),
     ("subject", JVal.obj [("reference", JVal.str "Patient/patient-1")]),
     ("summary", JVal.str cl.narrative_summary),
     ("finding", JVal.arr ((List.range cl.symptoms.length).map (fun idx =>
       JVal.obj [("itemReference", JVal.obj
         [("reference", JVal.str ("Observation/observation-" ++ toString (idx + 1)))])])))])]

/-- `clinical_summary_to_fhir`: the Bundle whose entries are the optional
Patient, one Condition per relevant condition, one Observation per
symptom, and the ClinicalImpression, in that order. -/
def clinical_summary_to_fhir (cl : ClinicalSummary) : JVal :=
  let patientEntries :=
    if truthyInt cl.patient_age || truthyStr cl.patient_gender then [patientEntry cl] else []
  JVal.obj
    [("resourceType", JVal.str "Bundle"),
     ("type", JVal.str "collection"),
     ("entry", JVal.arr
       (patientEntries ++ condEntries 0 cl.relevant_conditions ++
        obsEntries 0 cl.symptoms ++ [impressionEntry cl]))]

/-- `entry.get("resource", {})`. -/
def resourceOf (entry : JVal) : JVal :=
  jgetD entry "resource" (JVal.obj [])

/-- `entry.get("resource", {}).get("resourceType") == t`. -/
def isResType (t : String) (entry : JVal) : Bool :=
  match jgetStr (resourceOf entry) "resourceType" with
  | some s => s == t
  | none => false

/-- The symptom parsed from an `Observation` resource: name from
`code.text` (default `""`), duration/severity from the extension loop
(last matching extension wins, `duration` tested before `severity`),
description from `valueString`. -/
def parseObsSymptom (resource : JVal) : Symptom :=
  let name := jgetStrD (jgetD resource "code" (JVal.obj [])) "text"
  let ds := (jgetList resource "extension").foldl
    (fun (acc : Option String × Option String) ext =>
      let url := jgetStrD ext "url"
      if pyIn "duration" url then (jgetStr ext "valueString", acc.2)
      else if pyIn "severity" url then (acc.1, jgetStr ext "valueString")
      else acc)
    (none, none)
  { name := name
    duration := ds.1
    severity := ds.2
    description := jgetStr resource "valueString" }

/-- The body of the Observation sweep: the parsed symptom when the entry's
resource is an `Observation`. -/
def obsOfEntry (entry : JVal) : Option Symptom :=
  if isResType "Observation" entry then some (parseObsSymptom (resourceOf entry)) else none

/-- The body of the Condition sweep: the condition's `code.text` when the
entry's resource is a `Condition` and the text is truthy. -/
def condOfEntry (entry : JVal) : Option String :=
  if isResType "Condition" entry then
    let ct := jgetStrD (jgetD (resourceOf entry) "code" (JVal.obj [])) "text"
    if ct ≠ "" then some ct else none
  else none

/-- `fhir_to_clinical_summary`: first-Patient age/gender scan, the
Observation and Condition sweeps (a condition is kept only when its
`code.text` is truthy), the first-ClinicalImpression summary, and an
always-empty `risk_factors`. -/
def fhir_to_clinical_summary (bundle : JVal) : ClinicalSummary :=
  let entries := jgetList bundle "entry"
  let patient := (entries.find? (isResType "Patient")).map resourceOf
  let patient_age : Option Int :=
    match patient with
    | none => none
    | some p => (jgetList p "extension").foldl
        (fun acc ext =>
          if pyIn "age" (jgetStrD ext "url") then jgetInt ext "valueInteger" else acc)
        none
  let patient_gender : Option String :=
    match patient with
    | none => none
    | some p => jgetStr p "gender"
  { patient_age := patient_age
    patient_gender := patient_gender
    symptoms := entries.filterMap obsOfEntry
    risk_factors := []
    relevant_conditions := entries.filterMap condOfEntry
    narrative_summary :=
      match entries.find? (isResType "ClinicalImpression") with
      | some entry => jgetStrD (resourceOf entry) "summary"
      | none => "" }

def hsetEntry (prev : Option (Entry JobHash)) (now : Nat) (f : JobHash → JobHash) : Entry JobHash :=
  match prev with
  | some en => if aliveAt now en.expiry then ⟨f en.val, en.expiry⟩ else ⟨f emptyHash, none⟩
  | none => ⟨f emptyHash, none⟩

/-- The job entry `update_job_status` leaves under the written id. -/
def updEntry (prev : Option (Entry JobHash)) (now : Nat) (st : String)
    (r : Option (List (String × String))) (e : Option String) : Entry JobHash :=
  let e1 := hsetEntry prev now (fun h => { h with status := some st })
  let e2 := if truthyDict r then ⟨{ e1.val with completed_at := some now }, e1.expiry⟩ else e1
  if truthyStr e then
    ⟨{ { e2.val with error := e } with completed_at := some now }, e2.expiry⟩
  else e2

def statusIs (h : JobHash) (st : String) : Bool := h.status == some st

def nonEmptyErr : Option String → Bool
  | some e => e ≠ ""
  | none => false

def recordInvariantB (s : Store) (id : String) : Bool :=
  match lookupA s.jobs id with
  | none => true
  | some en =>
    let resPresent := (lookupA s.results id).isSome
    (!(statusIs en.val "pending" || statusIs en.val "processing") ||
      (en.val.error.isNone && !resPresent)) &&
    (!statusIs en.val "failed" || (nonEmptyErr en.val.error && !resPresent)) &&
    (!statusIs en.val "completed" || (resPresent && en.val.error.isNone))

/-! ## Concrete scenarios and projection helpers

The projections below (`jobStatusField`, …) let concrete store facts be
stated without quantifiers; the named stores and agents are the inputs the
closed theorems evaluate the code at. -/

/-- The `status` field of the stored (raw) job entry. -/
def jobStatusField (s : Store) (id : String) : Option (Option String) :=
  (lookupA s.jobs id).map (fun en => en.val.status)

/-- The `error` field of the stored (raw) job entry. -/
def jobErrorField (s : Store) (id : String) : Option (Option String) :=
  (lookupA s.jobs id).map (fun en => en.val.error)

/-- The expiry instant of the stored (raw) job entry. -/
def jobExpiryField (s : Store) (id : String) : Option (Option Nat) :=
  (lookupA s.jobs id).map (fun en => en.expiry)

/-- The `text` field of the stored (raw) job entry. -/
def jobTextField (s : Store) (id : String) : Option (Option String) :=
  (lookupA s.jobs id).map (fun en => en.val.text)

/-- The `audio_filename` field of the stored (raw) job entry. -/
def jobAudioFileField (s : Store) (id : String) : Option (Option String) :=
  (lookupA s.jobs id).map (fun en => en.val.audio_filename)

/-- The status a reader of `get_job_status` observes. -/
def viewStatus (s : Store) (now : Nat) (id : String) : Option (Option String) :=
  (get_job_status s now id).map (fun v => v.hash.status)

/-- The clinical summary a reader of `get_job_status` observes. -/
def viewSummary (s : Store) (now : Nat) (id : String) :
    Option (Option (List (String × String))) :=
  (get_job_status s now id).map (fun v => v.clinical_summary)

/-- The (name, duration, severity) core of a symptom, the part of a
symptom the FHIR round trip is claimed to preserve. -/
def symCore (x : Symptom) : String × Option String × Option String :=
  (x.name, x.duration, x.severity)

/-- Collaborator stub whose transcription and inference both succeed. -/
def stubAgent : Agent :=
  ⟨fun _ => Except.ok "transcribed text",
   fun _ => Except.ok [("narrative_summary", "ok")]⟩

/-- Collaborator stub whose inference call raises `model unavailable`. -/
def failingAgent : Agent :=
  ⟨fun _ => Except.ok "transcribed text",
   fun _ => Except.error "model unavailable"⟩

/-- A store holding one freshly enqueued text job `"j1"` (created at 0). -/
def demoStore : Store :=
  (enqueue_job emptyStore 0 "j1" (some "patient reports headache for 3 days") none none).2

/-- `demoStore` after the worker's `processing` transition (at time 1). -/
def procStore : Store := update_job_status demoStore 1 "j1" "processing" none none

/-- `procStore` immediately after the FIRST Redis command of
`update_job_status("j1", "completed", result)` run at time 2 — the status
`hset` — and before the result `setex`. -/
def midStore : Store :=
  hsetJob procStore 2 "j1" (fun h => { h with status := some "completed" })

/-- `procStore` after the whole completion update at time 2. -/
def doneStore : Store :=
  update_job_status procStore 2 "j1" "completed" (some [("narrative_summary", "ok")]) none

/-- `procStore` after a completion update run late, at time 1000. -/
def lateStore : Store :=
  update_job_status procStore 1000 "j1" "completed" (some [("narrative_summary", "ok")]) none

/-- A second enqueued-then-processing job `"j2"`. -/
def procStore8 : Store :=
  update_job_status (enqueue_job emptyStore 0 "j2" (some "hola") none none).2
    1 "j2" "processing" none none

/-- `procStore8` between the two Redis commands of its completion update. -/
def midStore8 : Store :=
  hsetJob procStore8 3 "j2" (fun h => { h with status := some "completed" })

/-- A job hash whose status reads `completed` while no result record
exists (e.g. after the result expired independently). -/
def orphanHash : JobHash := { emptyHash with status := some "completed", created_at := some 0 }

/-- A store holding `orphanHash` under `"j2"` and no result record. -/
def orphanStore : Store := Store.mk [("j2", Entry.mk orphanHash (some 86400))] []

/-- A store with a terminal `completed` record under `"j"`. -/
def completedStore : Store :=
  Store.mk [("j", Entry.mk { emptyHash with status := some "completed" } none)] []

/-- A store with a live `processing` record under `"j"` expiring at 100. -/
def c6Store : Store :=
  Store.mk [("j", Entry.mk { emptyHash with status := some "processing" } (some 100))] []

/-- A store already holding a record under id `"X"`. -/
def priorStore : Store :=
  Store.mk [("X", Entry.mk
    { emptyHash with status := some "completed", error := some "boom" } (some 100))] []

/-- A summary whose fields are all round-trip friendly. -/
def rtSummary : ClinicalSummary :=
  { symptoms := [⟨"headache", some "3 days", some "moderate", none⟩]
    relevant_conditions := ["migraine"]
    narrative_summary := "patient reports headache" }

/-- A summary with an empty-string (but present) symptom duration. -/
def badSummary : ClinicalSummary :=
  { symptoms := [⟨"cough", some "", none, none⟩]
    narrative_summary := "n" }

/-! ## Store lemmas -/

theorem lookupA_setA_self {α : Type} (l : List (String × α)) (k : String) (v : α) :
    lookupA (setA l k v) k = some v := by
  simp [setA, lookupA]

theorem lookupA_eraseAllA {α : Type} (l : List (String × α)) (k k' : String) (h : k' ≠ k) :
    lookupA (eraseAllA l k) k' = lookupA l k' := by
  induction l with
  | nil => rfl
  | cons p rest ih =>
    obtain ⟨a, b⟩ := p
    by_cases hak : a = k
    · subst hak
      simp [eraseAllA, lookupA, ih, Ne.symm h]
    · simp only [eraseAllA, if_neg hak]
      by_cases hak' : a = k'
      · simp [lookupA, hak']
      · simp [lookupA, hak', ih]

theorem lookupA_setA_other {α : Type} (l : List (String × α)) (k k' : String) (v : α)
    (h : k' ≠ k) : lookupA (setA l k v) k' = lookupA l k' := by
  simp [setA, lookupA, Ne.symm h, lookupA_eraseAllA l k k' h]

theorem lookupA_hsetJob_self (s : Store) (now : Nat) (id : String) (f : JobHash → JobHash) :
    lookupA (hsetJob s now id f).jobs id = some (hsetEntry (lookupA s.jobs id) now f) := by
  unfold hsetJob
  cases h : lookupA s.jobs id with
  | none => simp [hsetEntry, lookupA_setA_self]
  | some en =>
    by_cases ha : aliveAt now en.expiry = true
    · simp [hsetEntry, ha, lookupA_setA_self]
    · simp [hsetEntry, ha, lookupA_setA_self]

theorem hsetEntry_alive (prev : Option (Entry JobHash)) (now : Nat) (f : JobHash → JobHash) :
    aliveAt now (hsetEntry prev now f).expiry = true := by
  cases prev with
  | none => rfl
  | some en =>
    by_cases h : aliveAt now en.expiry = true
    · simp only [hsetEntry, if_pos h]; exact h
    · simp only [hsetEntry, if_neg h]; rfl

theorem hsetJob_results (s : Store) (now : Nat) (id : String) (f : JobHash → JobHash) :
    (hsetJob s now id f).results = s.results := by
  unfold hsetJob
  cases h : lookupA s.jobs id with
  | none => rfl
  | some en =>
    by_cases ha : aliveAt now en.expiry = true
    · simp [ha]
    · simp [ha]

theorem setResult_jobs (s : Store) (now : Nat) (id : String) (r : List (String × String)) :
    (setResult s now id r).jobs = s.jobs := rfl

theorem lookupA_setResult_self (s : Store) (now : Nat) (id : String) (r : List (String × String)) :
    lookupA (setResult s now id r).results id = some ⟨r, some (now + ttlSeconds)⟩ := by
  simp [setResult, lookupA_setA_self]

theorem lookupA_hsetJob_alive (s : Store) (now : Nat) (id : String) (f : JobHash → JobHash)
    (en : Entry JobHash) (h : lookupA s.jobs id = some en) (ha : aliveAt now en.expiry = true) :
    lookupA (hsetJob s now id f).jobs id = some ⟨f en.val, en.expiry⟩ := by
  unfold hsetJob
  rw [h]
  simp [ha, lookupA_setA_self]

theorem update_job_status_spec (s : Store) (now : Nat) (id st : String)
    (r : Option (List (String × String))) (e : Option String) :
    lookupA (update_job_status s now id st r e).jobs id =
      some (updEntry (lookupA s.jobs id) now st r e) ∧
    (update_job_status s now id st r e).results =
      (if truthyDict r then setA s.results id ⟨r.getD [], some (now + ttlSeconds)⟩
       else s.results) := by
  unfold update_job_status updEntry
  set f1 : JobHash → JobHash := fun h => { h with status := some st } with hf1
  have h1 := lookupA_hsetJob_self s now id f1
  set e1 := hsetEntry (lookupA s.jobs id) now f1 with he1
  have ha1 : aliveAt now e1.expiry = true := hsetEntry_alive _ _ _
  have hres1 : (hsetJob s now id f1).results = s.results := hsetJob_results _ _ _ _
  by_cases hr : truthyDict r = true
  · simp only [hr, if_true]
    have h2 := lookupA_hsetJob_alive (setResult (hsetJob s now id f1) now id (r.getD []))
      now id (fun h => { h with completed_at := some now }) e1 (by rw [setResult_jobs]; exact h1) ha1
    have hres2 : (hsetJob (setResult (hsetJob s now id f1) now id (r.getD [])) now id
        (fun h => { h with completed_at := some now })).results =
        setA s.results id ⟨r.getD [], some (now + ttlSeconds)⟩ := by
      rw [hsetJob_results]
      simp [setResult, hres1]
    by_cases he : truthyStr e = true
    · simp only [he, if_true]
      have h3 := lookupA_hsetJob_alive _ now id (fun h => { h with error := e })
        ⟨{ e1.val with completed_at := some now }, e1.expiry⟩ h2 ha1
      have h4 := lookupA_hsetJob_alive _ now id (fun h => { h with completed_at := some now })
        ⟨{ { e1.val with completed_at := some now } with error := e }, e1.expiry⟩ h3 ha1
      refine ⟨h4, ?_⟩
      rw [hsetJob_results, hsetJob_results, hres2]
    · simp only [he, if_false]
      exact ⟨h2, hres2⟩
  · simp only [Bool.not_eq_true] at hr
    simp only [hr, Bool.false_eq_true, if_false]
    by_cases he : truthyStr e = true
    · simp only [he, if_true]
      have h3 := lookupA_hsetJob_alive _ now id (fun h => { h with error := e }) e1 h1 ha1
      have h4 := lookupA_hsetJob_alive _ now id (fun h => { h with completed_at := some now })
        ⟨{ e1.val with error := e }, e1.expiry⟩ h3 ha1
      refine ⟨h4, ?_⟩
      rw [hsetJob_results, hsetJob_results, hres1]
    · simp only [Bool.not_eq_true] at he
      simp only [he, Bool.false_eq_true, if_false]
      exact ⟨h1, hres1⟩

theorem hsetEntry_val (prev : Option (Entry JobHash)) (now : Nat) (f : JobHash → JobHash) :
    ∃ h0, (hsetEntry prev now f).val = f h0 := by
  cases prev with
  | none => exact ⟨emptyHash, rfl⟩
  | some en =>
    by_cases ha : aliveAt now en.expiry = true
    · exact ⟨en.val, by simp [hsetEntry, ha]⟩
    · exact ⟨emptyHash, by simp [hsetEntry, ha]⟩

theorem hsetEntry_error_none (prev : Option (Entry JobHash)) (now : Nat) (f : JobHash → JobHash)
    (hp : ∀ en, prev = some en → en.val.error = none)
    (hf : ∀ h, (f h).error = h.error) :
    (hsetEntry prev now f).val.error = none := by
  cases prev with
  | none => rw [hsetEntry, hf]; rfl
  | some en =>
    by_cases ha : aliveAt now en.expiry = true
    · simp only [hsetEntry, if_pos ha]
      rw [hf]
      exact hp en rfl
    · simp only [hsetEntry, if_neg ha]
      rw [hf]
      rfl

theorem updEntry_status (prev : Option (Entry JobHash)) (now : Nat) (st : String)
    (r : Option (List (String × String))) (e : Option String) :
    (updEntry prev now st r e).val.status = some st := by
  obtain ⟨h0, hh⟩ := hsetEntry_val prev now (fun h => { h with status := some st })
  unfold updEntry
  by_cases he : truthyStr e = true <;> by_cases hrr : truthyDict r = true <;>
    simp [he, hrr, hh]

theorem updEntry_error_truthy (prev : Option (Entry JobHash)) (now : Nat) (st : String)
    (r : Option (List (String × String))) (e : Option String) (he : truthyStr e = true) :
    (updEntry prev now st r e).val.error = e := by
  unfold updEntry
  simp [he]

theorem updEntry_error_falsy (prev : Option (Entry JobHash)) (now : Nat) (st : String)
    (r : Option (List (String × String))) (e : Option String) (he : truthyStr e = false)
    (hp : ∀ en, prev = some en → en.val.error = none) :
    (updEntry prev now st r e).val.error = none := by
  have hbase := hsetEntry_error_none prev now (fun h => { h with status := some st }) hp
    (fun h => rfl)
  unfold updEntry
  by_cases hrr : truthyDict r = true <;> simp [he, hrr, hbase]

theorem updEntry_expiry (prev : Option (Entry JobHash)) (now : Nat) (st : String)
    (r : Option (List (String × String))) (e : Option String) :
    (updEntry prev now st r e).expiry =
      (hsetEntry prev now (fun h => { h with status := some st })).expiry := by
  unfold updEntry
  by_cases he : truthyStr e = true <;> by_cases hrr : truthyDict r = true <;> simp [he, hrr]

theorem hsetEntry_expiry_alive (now : Nat) (f : JobHash → JobHash) (en : Entry JobHash)
    (ha : aliveAt now en.expiry = true) :
    (hsetEntry (some en) now f).expiry = en.expiry := by
  simp [hsetEntry, ha]

theorem invariantB_of_none (s : Store) (id : String) (hj : lookupA s.jobs id = none) :
    recordInvariantB s id = true := by
  simp [recordInvariantB, hj]

theorem invariantB_pending (s : Store) (id : String) (en : Entry JobHash)
    (hj : lookupA s.jobs id = some en) (hst : en.val.status = some "pending")
    (herr : en.val.error = none) (hres : lookupA s.results id = none) :
    recordInvariantB s id = true := by
  simp [recordInvariantB, hj, hst, herr, hres, statusIs, nonEmptyErr]

theorem invariantB_processing (s : Store) (id : String) (en : Entry JobHash)
    (hj : lookupA s.jobs id = some en) (hst : en.val.status = some "processing")
    (herr : en.val.error = none) (hres : lookupA s.results id = none) :
    recordInvariantB s id = true := by
  simp [recordInvariantB, hj, hst, herr, hres, statusIs, nonEmptyErr]

theorem invariantB_completed (s : Store) (id : String) (en : Entry JobHash)
    (hj : lookupA s.jobs id = some en) (hst : en.val.status = some "completed")
    (herr : en.val.error = none) (hres : (lookupA s.results id).isSome = true) :
    recordInvariantB s id = true := by
  simp [recordInvariantB, hj, hst, herr, hres, statusIs, nonEmptyErr]

theorem invariantB_failed (s : Store) (id : String) (en : Entry JobHash)
    (hj : lookupA s.jobs id = some en) (hst : en.val.status = some "failed")
    (e : String) (herr : en.val.error = some e) (hne : e ≠ "")
    (hres : lookupA s.results id = none) :
    recordInvariantB s id = true := by
  simp [recordInvariantB, hj, hst, herr, hres, statusIs, nonEmptyErr, hne]

theorem errMsg_ne (e tb : String) : errMsg e tb ≠ "" := by
  unfold errMsg
  intro h
  have h2 := congrArg String.data h
  simp [String.data_append] at h2

theorem lookupA_expireJob_alive (s : Store) (now : Nat) (id : String) (en : Entry JobHash)
    (h : lookupA s.jobs id = some en) (ha : aliveAt now en.expiry = true) :
    lookupA (expireJob s now id).jobs id = some ⟨en.val, some (now + ttlSeconds)⟩ := by
  unfold expireJob
  rw [h]
  simp [ha, lookupA_setA_self]

/-- Everything `enqueue_job` guarantees about the record it writes,
whatever the prior store contents. -/
theorem enqueue_job_spec (s : Store) (now : Nat) (id : String) (t af au : Option String) :
    (enqueue_job s now id t af au).1 = id ∧
    ∃ en, lookupA (enqueue_job s now id t af au).2.jobs id = some en ∧
      en.val.job_id = some id ∧ en.val.status = some "pending" ∧
      en.val.created_at = some now ∧ en.val.text = some (pyOr t) ∧
      en.val.audio_filename = some (pyOr af) ∧ en.val.audio_url = some (pyOr au) ∧
      en.expiry = some (now + ttlSeconds) := by
  refine ⟨rfl, ?_⟩
  unfold enqueue_job
  dsimp only
  set f := fun h : JobHash =>
    { h with
      job_id := some id, status := some "pending", created_at := some now,
      text := some (pyOr t), audio_filename := some (pyOr af),
      audio_url := some (pyOr au) } with hf
  have h1 := lookupA_hsetJob_self s now id f
  have ha1 : aliveAt now (hsetEntry (lookupA s.jobs id) now f).expiry = true :=
    hsetEntry_alive _ _ _
  have h2 := lookupA_expireJob_alive (hsetJob s now id f) now id _ h1 ha1
  obtain ⟨h0, hh⟩ := hsetEntry_val (lookupA s.jobs id) now f
  refine ⟨_, h2, ?_, ?_, ?_, ?_, ?_, ?_, rfl⟩ <;> simp [hh, hf]

theorem process_clinical_job_cases (ag : Agent) (tb : String) (s : Store) (now : Nat)
    (id : String) :
    (∃ rd s1, process_clinical_job ag tb s now id =
        (Except.ok rd, update_job_status s1 now id "completed" (some rd) none)) ∨
    (∃ e s0, process_clinical_job ag tb s now id =
        (Except.error (errMsg e tb),
         update_job_status s0 now id "failed" none (some (errMsg e tb)))) := by
  unfold process_clinical_job
  cases hg : get_job_status s now id with
  | none => exact Or.inr ⟨_, s, rfl⟩
  | some view =>
    dsimp only
    split
    · exact Or.inr ⟨_, _, rfl⟩
    · split
      · exact Or.inr ⟨_, _, rfl⟩
      · split
        · exact Or.inr ⟨_, _, rfl⟩
        · exact Or.inl ⟨_, _, rfl⟩

/-! ## FHIR adapter lemmas -/

theorem entries_to_fhir (cl : ClinicalSummary) :
    jgetList (clinical_summary_to_fhir cl) "entry" =
      (if truthyInt cl.patient_age || truthyStr cl.patient_gender then [patientEntry cl]
       else []) ++
      condEntries 0 cl.relevant_conditions ++ obsEntries 0 cl.symptoms ++
      [impressionEntry cl] := by
  simp [clinical_summary_to_fhir, jgetList, jget, lookupA]

theorem isResType_condEntry (t : String) (i : Nat) (c : String) :
    isResType t (condEntry i c) = ("Condition" == t) := by
  simp [isResType, resourceOf, condEntry, jgetD, jget, jgetStr, lookupA]

theorem isResType_obsEntry (t : String) (i : Nat) (sym : Symptom) :
    isResType t (obsEntry i sym) = ("Observation" == t) := by
  unfold obsEntry
  simp [isResType, resourceOf, jgetD, jget, jgetStr, lookupA]

theorem isResType_patientEntry (t : String) (cl : ClinicalSummary) :
    isResType t (patientEntry cl) = ("Patient" == t) := by
  unfold patientEntry
  simp [isResType, resourceOf, jgetD, jget, jgetStr, lookupA]

theorem isResType_impressionEntry (t : String) (cl : ClinicalSummary) :
    isResType t (impressionEntry cl) = ("ClinicalImpression" == t) := by
  simp [isResType, resourceOf, impressionEntry, jgetD, jget, jgetStr, lookupA]

theorem pyIn_dur_durURL :
    pyIn "duration" "http://example.org/fhir/StructureDefinition/duration" = true := by decide

theorem pyIn_sev_durURL :
    pyIn "severity" "http://example.org/fhir/StructureDefinition/duration" = false := by decide

theorem pyIn_dur_sevURL :
    pyIn "duration" "http://example.org/fhir/StructureDefinition/severity" = false := by decide

theorem pyIn_sev_sevURL :
    pyIn "severity" "http://example.org/fhir/StructureDefinition/severity" = true := by decide

theorem condOfEntry_condEntry (i : Nat) (c : String) (h : c ≠ "") :
    condOfEntry (condEntry i c) = some c := by
  have ht : isResType "Condition" (condEntry i c) = true := by
    rw [isResType_condEntry]
    rfl
  simp only [condOfEntry, ht, if_true]
  simp [condEntry, resourceOf, jgetD, jget, jgetStrD, jgetStr, lookupA, h]

theorem condOfEntry_obsEntry (i : Nat) (sym : Symptom) :
    condOfEntry (obsEntry i sym) = none := by
  simp [condOfEntry, isResType_obsEntry]

theorem condOfEntry_patientEntry (cl : ClinicalSummary) :
    condOfEntry (patientEntry cl) = none := by
  simp [condOfEntry, isResType_patientEntry]

theorem condOfEntry_impressionEntry (cl : ClinicalSummary) :
    condOfEntry (impressionEntry cl) = none := by
  simp [condOfEntry, isResType_impressionEntry]

theorem obsOfEntry_condEntry (i : Nat) (c : String) :
    obsOfEntry (condEntry i c) = none := by
  simp [obsOfEntry, isResType_condEntry]

theorem obsOfEntry_patientEntry (cl : ClinicalSummary) :
    obsOfEntry (patientEntry cl) = none := by
  simp [obsOfEntry, isResType_patientEntry]

theorem obsOfEntry_impressionEntry (cl : ClinicalSummary) :
    obsOfEntry (impressionEntry cl) = none := by
  simp [obsOfEntry, isResType_impressionEntry]

theorem obsOfEntry_obsEntry (i : Nat) (sym : Symptom) :
    obsOfEntry (obsEntry i sym) = some (parseObsSymptom (resourceOf (obsEntry i sym))) := by
  simp [obsOfEntry, isResType_obsEntry]

theorem parseObs_obsEntry (i : Nat) (sym : Symptom)
    (hd : sym.duration ≠ some "") (hs : sym.severity ≠ some "") :
    parseObsSymptom (resourceOf (obsEntry i sym)) =
      { name := sym.name, duration := sym.duration, severity := sym.severity,
        description :=
          some (if truthyStr sym.description then pyOr sym.description else sym.name) } := by
  cases hdu : sym.duration with
  | none =>
    cases hsv : sym.severity with
    | none =>
      simp [parseObsSymptom, obsEntry, resourceOf, jgetD, jget, jgetStr, jgetStrD, jgetList,
        lookupA, truthyStr, pyOr, hdu, hsv]
    | some sv =>
      have hsv' : sv ≠ "" := fun hh => hs (by rw [hsv, hh])
      simp [parseObsSymptom, obsEntry, resourceOf, jgetD, jget, jgetStr, jgetStrD, jgetList,
        lookupA, truthyStr, pyOr, hdu, hsv, hsv', pyIn_dur_sevURL, pyIn_sev_sevURL]
  | some d =>
    have hd' : d ≠ "" := fun hh => hd (by rw [hdu, hh])
    cases hsv : sym.severity with
    | none =>
      simp [parseObsSymptom, obsEntry, resourceOf, jgetD, jget, jgetStr, jgetStrD, jgetList,
        lookupA, truthyStr, pyOr, hdu, hsv, hd', pyIn_dur_durURL, pyIn_sev_durURL]
    | some sv =>
      have hsv' : sv ≠ "" := fun hh => hs (by rw [hsv, hh])
      simp [parseObsSymptom, obsEntry, resourceOf, jgetD, jget, jgetStr, jgetStrD, jgetList,
        lookupA, truthyStr, pyOr, hdu, hsv, hd', hsv', pyIn_dur_durURL, pyIn_sev_durURL,
        pyIn_dur_sevURL, pyIn_sev_sevURL]

theorem filterMap_cond_condEntries (cs : List String) :
    ∀ i, (∀ c ∈ cs, c ≠ "") → (condEntries i cs).filterMap condOfEntry = cs := by
  induction cs with
  | nil => intro i _; rfl
  | cons c rest ih =>
    intro i h
    have hc : c ≠ "" := h c (List.mem_cons_self c rest)
    simp [condEntries, List.filterMap_cons, condOfEntry_condEntry i c hc,
      ih (i + 1) (fun x hx => h x (List.mem_cons_of_mem c hx))]

theorem filterMap_obs_condEntries (cs : List String) :
    ∀ i, (condEntries i cs).filterMap obsOfEntry = [] := by
  induction cs with
  | nil => intro i; rfl
  | cons c rest ih =>
    intro i
    simp [condEntries, List.filterMap_cons, obsOfEntry_condEntry, ih (i + 1)]

theorem find?_imp_condEntries (cs : List String) :
    ∀ i, (condEntries i cs).find? (isResType "ClinicalImpression") = none := by
  induction cs with
  | nil => intro i; rfl
  | cons c rest ih =>
    intro i
    simp [condEntries, List.find?_cons, isResType_condEntry, ih (i + 1)]

theorem filterMap_obs_obsEntries (syms : List Symptom) :
    ∀ i, (∀ sym ∈ syms, sym.duration ≠ some "" ∧ sym.severity ≠ some "") →
      (obsEntries i syms).filterMap obsOfEntry = syms.map (fun sym =>
        { name := sym.name, duration := sym.duration, severity := sym.severity,
          description :=
            some (if truthyStr sym.description then pyOr sym.description else sym.name) }) := by
  induction syms with
  | nil => intro i _; rfl
  | cons sym rest ih =>
    intro i h
    obtain ⟨hd, hs⟩ := h sym (List.mem_cons_self sym rest)
    simp [obsEntries, List.filterMap_cons, obsOfEntry_obsEntry, parseObs_obsEntry i sym hd hs,
      ih (i + 1) (fun x hx => h x (List.mem_cons_of_mem sym hx))]

theorem filterMap_cond_obsEntries (syms : List Symptom) :
    ∀ i, (obsEntries i syms).filterMap condOfEntry = [] := by
  induction syms with
  | nil => intro i; rfl
  | cons sym rest ih =>
    intro i
    simp [obsEntries, List.filterMap_cons, condOfEntry_obsEntry, ih (i + 1)]

theorem find?_imp_obsEntries (syms : List Symptom) :
    ∀ i, (obsEntries i syms).find? (isResType "ClinicalImpression") = none := by
  induction syms with
  | nil => intro i; rfl
  | cons sym rest ih =>
    intro i
    simp [obsEntries, List.find?_cons, isResType_obsEntry, ih (i + 1)]

theorem summary_impressionEntry (cl : ClinicalSummary) :
    jgetStrD (resourceOf (impressionEntry cl)) "summary" = cl.narrative_summary := by
  simp [impressionEntry, resourceOf, jgetD, jget, jgetStrD, jgetStr, lookupA]

/-! ## Claims -/

/-- C1: the claim states that on success the result is durably stored
strictly before the job's status flips to `completed`, so no reader ever
observes `completed` with a missing result.  The code does the opposite:
inside `update_job_status` the `hset` of the status field precedes the
result `setex`.  This theorem evaluates the code at the failing input: the
completion update `update_job_status("j1", "completed", result)` on a
processing job at time 2.  Its first conjunct shows `midStore` is exactly
the state after that update's first Redis command (the whole update is
that command followed by the result `setex` and the `completed_at` write);
the remaining conjuncts show a reader of `get_job_status` at that
reachable state observes status `completed`, a missing result record, and
no attached summary. -/
theorem c1_completed_visible_before_result_write :
    doneStore = hsetJob (setResult midStore 2 "j1" [("narrative_summary", "ok")]) 2 "j1"
      (fun h => { h with completed_at := some 2 }) ∧
    viewStatus midStore 2 "j1" = some (some "completed") ∧
    getResult midStore 2 "j1" = none ∧
    viewSummary midStore 2 "j1" = some none :=
  ⟨rfl, by decide, by decide, by decide⟩

/-- C2 (amended): `update_job_status` performs no transition validation and
has no NotFound outcome: for every store, job id, requested status, result
and error argument, it unconditionally writes the requested status (the
record exists afterwards even if it was absent before, and whatever status
was stored before is overwritten). -/
theorem c2_update_status_unconditional (s : Store) (now : Nat) (id st : String)
    (r : Option (List (String × String))) (e : Option String) :
    ∃ en, lookupA (update_job_status s now id st r e).jobs id = some en ∧
      en.val.status = some st := by
  obtain ⟨hj, _⟩ := update_job_status_spec s now id st r e
  exact ⟨_, hj, updEntry_status _ _ _ _ _⟩

/-- C2 counterexample: a job whose stored status is terminal `completed`
is moved back to `pending` by `update_job_status` (a backward transition
the claim says is rejected with InvalidTransition), and an update for an
absent id writes a record instead of returning NotFound. -/
theorem c2_backward_transition_accepted :
    jobStatusField completedStore "j" = some (some "completed") ∧
    jobStatusField (update_job_status completedStore 0 "j" "pending" none none) "j" =
      some (some "pending") ∧
    (lookupA (update_job_status emptyStore 0 "ghost" "processing" none none).jobs
      "ghost").isSome = true := by
  decide

/-- C3 (amended): `submit_job` rejects with `InvalidInput` exactly when the
text is falsy (absent or empty) AND no audio file is present, leaving the
store untouched; a submission carrying BOTH a truthy text and an audio
file is accepted — a job id is issued and the record stores both payloads
— contrary to the claim's exactly-one rule. -/
theorem c3_submit_rejects_iff_neither_payload (s : Store) (now : Nat) (fid : String)
    (text af : Option String) :
    ((submit_job s now fid text af).1 = SubmitOutcome.invalidInput ↔
      truthyStr text = false ∧ af = none) ∧
    ((submit_job s now fid text af).1 = SubmitOutcome.invalidInput →
      (submit_job s now fid text af).2 = s) ∧
    (∀ fn, af = some fn → truthyStr text = true →
      (submit_job s now fid text af).1 = SubmitOutcome.accepted fid "pending" ∧
      ∃ en, lookupA (submit_job s now fid text af).2.jobs fid = some en ∧
        en.val.text = some (pyOr text) ∧ en.val.audio_filename = some fn) := by
  by_cases ht : truthyStr text = true
  · cases af with
    | none =>
      refine ⟨by simp [submit_job, ht], by simp [submit_job, ht], ?_⟩
      intro fn hfn
      cases hfn
    | some fn =>
      obtain ⟨h1, en, hl, _, _, _, htx, haf, _, _⟩ :=
        enqueue_job_spec s now fid text (some fn) none
      refine ⟨by simp [submit_job, ht], by simp [submit_job, ht], ?_⟩
      intro fn' hfn' _
      cases hfn'
      refine ⟨?_, en, ?_, htx, by simpa [pyOr] using haf⟩
      · simp [submit_job, ht, h1]
      · simpa [submit_job, ht] using hl
  · simp only [Bool.not_eq_true] at ht
    cases af with
    | none =>
      refine ⟨by simp [submit_job, ht], by simp [submit_job, ht], ?_⟩
      intro fn hfn
      cases hfn
    | some fn =>
      refine ⟨by simp [submit_job, ht], by simp [submit_job, ht], ?_⟩
      intro fn' hfn' hcon
      rw [ht] at hcon
      cases hcon

/-- C3 witness: a submission carrying both payload kinds, run through the
theorem's both-present branch. -/
theorem c3_submit_rejects_iff_neither_payload_witness :
    (submit_job emptyStore 0 "id1" (some "hola") (some "a.mp3")).1 =
      SubmitOutcome.accepted "id1" "pending" :=
  ((c3_submit_rejects_iff_neither_payload emptyStore 0 "id1" (some "hola")
    (some "a.mp3")).2.2 "a.mp3" rfl rfl).1

/-- C3 counterexample: a submission with both a non-empty text and an
audio file present is accepted — a job id is issued and a record carrying
both payloads is created — where the claim demands `InvalidInput` before
any job id is issued. -/
theorem c3_both_payloads_accepted :
    (submit_job emptyStore 0 "id1" (some "patient reports headache") (some "a.mp3")).1 =
      SubmitOutcome.accepted "id1" "pending" ∧
    jobTextField (submit_job emptyStore 0 "id1" (some "patient reports headache")
      (some "a.mp3")).2 "id1" = some (some "patient reports headache") ∧
    jobAudioFileField (submit_job emptyStore 0 "id1" (some "patient reports headache")
      (some "a.mp3")).2 "id1" = some (some "a.mp3") := by
  decide

/-- C4 (amended): when the dequeued job's record is missing, the worker is
NOT a silent no-op: loading raises `ValueError("Trabajo {id} no
encontrado")`, the catch-all handler writes a `failed` status with that
message under the missing id (creating a fresh record), and the exception
is re-raised out of `process_clinical_job`. -/
theorem c4_missing_job_marks_failed_and_reraises (ag : Agent) (tb : String) (s : Store)
    (now : Nat) (id : String) (h : get_job_status s now id = none) :
    process_clinical_job ag tb s now id =
      (Except.error (errMsg ("Trabajo " ++ id ++ " no encontrado") tb),
       update_job_status s now id "failed" none
         (some (errMsg ("Trabajo " ++ id ++ " no encontrado") tb))) ∧
    ∃ en, lookupA (process_clinical_job ag tb s now id).2.jobs id = some en ∧
      en.val.status = some "failed" := by
  have hp : process_clinical_job ag tb s now id =
      (Except.error (errMsg ("Trabajo " ++ id ++ " no encontrado") tb),
       update_job_status s now id "failed" none
         (some (errMsg ("Trabajo " ++ id ++ " no encontrado") tb))) := by
    unfold process_clinical_job
    rw [h]
  refine ⟨hp, ?_⟩
  rw [hp]
  obtain ⟨hj, _⟩ := update_job_status_spec s now id "failed" none
    (some (errMsg ("Trabajo " ++ id ++ " no encontrado") tb))
  exact ⟨_, hj, updEntry_status _ _ _ _ _⟩

/-- C4 witness: the theorem applied to an id absent from the empty store. -/
theorem c4_missing_job_marks_failed_and_reraises_witness :
    process_clinical_job stubAgent "tb" emptyStore 5 "ghost" =
      (Except.error (errMsg ("Trabajo " ++ "ghost" ++ " no encontrado") "tb"),
       update_job_status emptyStore 5 "ghost" "failed" none
         (some (errMsg ("Trabajo " ++ "ghost" ++ " no encontrado") "tb"))) :=
  (c4_missing_job_marks_failed_and_reraises stubAgent "tb" emptyStore 5 "ghost" rfl).1

/-- C4 counterexample: dequeuing the never-created id `"ghost"` leaves the
store CHANGED — a fresh record with status `failed` now exists for that id
— and the call ends in a raised error, not a quiet continue. -/
theorem c4_missing_job_not_noop :
    jobStatusField (process_clinical_job stubAgent "tb" emptyStore 5 "ghost").2 "ghost" =
      some (some "failed") ∧
    (process_clinical_job stubAgent "tb" emptyStore 5 "ghost").1 =
      Except.error (errMsg "Trabajo ghost no encontrado" "tb") :=
  ⟨by decide, rfl⟩

/-- C5 (amended): whenever `process_clinical_job` ends with an exception
(message `m`), the fault was first converted into durable state — the
job's record reads status `failed` with `error = m`, and `m` (built by the
worker's handler) is non-empty — but the exception IS then re-raised past
the loop boundary (the bare `raise` at the end of the handler), so the
function does not return normally after recording the failure. -/
theorem c5_fault_recorded_failed_then_reraised (ag : Agent) (tb : String) (s : Store)
    (now : Nat) (id m : String)
    (h : (process_clinical_job ag tb s now id).1 = Except.error m) :
    m ≠ "" ∧
    ∃ en, lookupA (process_clinical_job ag tb s now id).2.jobs id = some en ∧
      en.val.status = some "failed" ∧ en.val.error = some m := by
  rcases process_clinical_job_cases ag tb s now id with ⟨rd, s1, hp⟩ | ⟨e, s0, hp⟩
  · rw [hp] at h
    cases h
  · rw [hp] at h
    have hm : m = errMsg e tb := (Except.error.injEq _ _).mp h.symm
    subst hm
    rw [hp]
    obtain ⟨hj, _⟩ := update_job_status_spec s0 now id "failed" none (some (errMsg e tb))
    refine ⟨errMsg_ne e tb, _, hj, updEntry_status _ _ _ _ _, ?_⟩
    exact updEntry_error_truthy _ _ _ _ _ (by simp [truthyStr, errMsg_ne e tb])

/-- C5 witness: the theorem applied to a run whose inference collaborator
raises `model unavailable` on the live job `"j1"`. -/
theorem c5_fault_recorded_failed_then_reraised_witness :
    (process_clinical_job failingAgent "tb" demoStore 2 "j1").1 =
      Except.error (errMsg "model unavailable" "tb") ∧
    jobStatusField (process_clinical_job failingAgent "tb" demoStore 2 "j1").2 "j1" =
      some (some "failed") ∧
    jobErrorField (process_clinical_job failingAgent "tb" demoStore 2 "j1").2 "j1" =
      some (some (errMsg "model unavailable" "tb")) := by
  obtain ⟨hne, en, hl, hst, herr⟩ := c5_fault_recorded_failed_then_reraised failingAgent
    "tb" demoStore 2 "j1" (errMsg "model unavailable" "tb") rfl
  refine ⟨rfl, ?_, ?_⟩
  · unfold jobStatusField
    rw [hl]
    simp [hst]
  · unfold jobErrorField
    rw [hl]
    simp [herr]

/-- C5 counterexample: the claim says a collaborator fault is never thrown
past `process_clinical_job` (it returns normally after recording the
failure); here the inference fault escapes the call as a raised error. -/
theorem c5_fault_escapes_worker_boundary :
    (process_clinical_job failingAgent "tb" demoStore 2 "j1").1 =
      Except.error (errMsg "model unavailable" "tb") := rfl

/-- C6 (amended): no write after creation changes the JOB record's expiry —
`update_job_status` (all its `hset`s) leaves a live record's expiry
exactly as it was — but the RESULT record written on completion gets a
fresh 24h TTL anchored at the completion write's time `now`, not at
`createdAt`, so job metadata and result do NOT generally become unreadable
at the same createdAt-derived instant. -/
theorem c6_update_preserves_job_expiry_result_ttl_from_now (s : Store) (now : Nat)
    (id st : String) (r : Option (List (String × String))) (e : Option String)
    (en : Entry JobHash) (hj : lookupA s.jobs id = some en)
    (ha : aliveAt now en.expiry = true) (hr : truthyDict r = true) :
    (∃ en', lookupA (update_job_status s now id st r e).jobs id = some en' ∧
      en'.expiry = en.expiry) ∧
    lookupA (update_job_status s now id st r e).results id =
      some ⟨r.getD [], some (now + ttlSeconds)⟩ := by
  obtain ⟨hjj, hres⟩ := update_job_status_spec s now id st r e
  refine ⟨⟨_, hjj, ?_⟩, ?_⟩
  · rw [updEntry_expiry, hj]
    exact hsetEntry_expiry_alive now _ en ha
  · rw [hres]
    simp [hr, lookupA_setA_self]

/-- C6 witness: the theorem applied to a live record expiring at 100,
completed at time 1: the job expiry stays 100 while the result's becomes
1 + 86400. -/
theorem c6_update_preserves_job_expiry_result_ttl_from_now_witness :
    jobExpiryField (update_job_status c6Store 1 "j" "completed"
      (some [("k", "v")]) none) "j" = some (some 100) ∧
    lookupA (update_job_status c6Store 1 "j" "completed"
      (some [("k", "v")]) none).results "j" =
      some (Entry.mk [("k", "v")] (some (1 + ttlSeconds))) := by
  obtain ⟨⟨en', hl, hx⟩, hres⟩ := c6_update_preserves_job_expiry_result_ttl_from_now
    c6Store 1 "j" "completed" (some [("k", "v")]) none
    (Entry.mk { emptyHash with status := some "processing" } (some 100))
    rfl (by decide) rfl
  refine ⟨?_, ?_⟩
  · unfold jobExpiryField
    rw [hl]
    simp [hx]
  · simpa using hres

/-- C6 counterexample: job `"j1"` created at 0 and completed at 1000: just
before the 86400 expiry the job record is readable; at 86500 the job
record is gone while its result is still readable (the result expires at
1000 + 86400), refuting that both become unreadable at the same
createdAt-derived instant. -/
theorem c6_result_outlives_job_record :
    (aliveJob lateStore 86399 "j1").isSome = true ∧
    aliveJob lateStore 86500 "j1" = none ∧
    getResult lateStore 86500 "j1" = some [("narrative_summary", "ok")] := by
  decide

/-- C7 (amended): `enqueue_job` checks nothing: whatever the prior store
contents (in particular, even when a record with the generated id already
exists), it returns the given id and unconditionally overwrites the
record's creation fields, resetting status to `pending`, `created_at` to
`now` and the TTL to `now + 24h`; there is no DuplicateId outcome and no
retry loop. -/
theorem c7_enqueue_overwrites_unconditionally (s : Store) (now : Nat) (id : String)
    (t af au : Option String) :
    (enqueue_job s now id t af au).1 = id ∧
    ∃ en, lookupA (enqueue_job s now id t af au).2.jobs id = some en ∧
      en.val.status = some "pending" ∧ en.val.created_at = some now ∧
      en.expiry = some (now + ttlSeconds) := by
  obtain ⟨h1, en, hl, _, hst, hcr, _, _, _, hex⟩ := enqueue_job_spec s now id t af au
  exact ⟨h1, en, hl, hst, hcr, hex⟩

/-- C7 counterexample: enqueueing with an id that already names a
completed record silently replaces that record's status with `pending`
(the stale `error` field even survives the overwrite); no DuplicateId
failure and no fresh-id retry happen. -/
theorem c7_colliding_id_silently_replaced :
    jobStatusField priorStore "X" = some (some "completed") ∧
    (enqueue_job priorStore 1 "X" (some "t") none none).1 = "X" ∧
    jobStatusField (enqueue_job priorStore 1 "X" (some "t") none none).2 "X" =
      some (some "pending") ∧
    jobErrorField (enqueue_job priorStore 1 "X" (some "t") none none).2 "X" =
      some (some "boom") := by
  decide

/-- C8 (amended): at the OPERATION boundaries of a job's lifecycle
(after creation, after the `processing` update, after the terminal
update), the payload invariant holds: pending/processing records carry
neither error nor result, a failed record carries the non-empty error and
no result, a completed record carries a result and no error.  Within the
completion update, however, there is an observable state violating it
(see the counterexample). -/
theorem c8_lifecycle_payload_invariant (id : String) (text af au : Option String)
    (now0 now1 now2 : Nat) (r : List (String × String)) (e : String)
    (hr : r ≠ []) (he : e ≠ "") :
    recordInvariantB (enqueue_job emptyStore now0 id text af au).2 id = true ∧
    recordInvariantB (update_job_status (enqueue_job emptyStore now0 id text af au).2
      now1 id "processing" none none) id = true ∧
    recordInvariantB (update_job_status (update_job_status (enqueue_job emptyStore now0 id
      text af au).2 now1 id "processing" none none) now2 id "completed" (some r) none)
      id = true ∧
    recordInvariantB (update_job_status (update_job_status (enqueue_job emptyStore now0 id
      text af au).2 now1 id "processing" none none) now2 id "failed" none (some e))
      id = true := by
  set sA := (enqueue_job emptyStore now0 id text af au).2 with hsA
  set sB := update_job_status sA now1 id "processing" none none with hsB
  set sC := update_job_status sB now2 id "completed" (some r) none with hsC
  set sD := update_job_status sB now2 id "failed" none (some e) with hsD
  have htr : truthyDict (some r) = true := by
    cases r with
    | nil => exact absurd rfl hr
    | cons a l => rfl
  have hte : truthyStr (some e) = true := by simp [truthyStr, he]
  have hA : sA = Store.mk [(id, Entry.mk (JobHash.mk (some id) (some "pending") (some now0)
      (some (pyOr text)) (some (pyOr af)) (some (pyOr au)) none none)
      (some (now0 + ttlSeconds)))] [] := by
    show (enqueue_job emptyStore now0 id text af au).2 = _
    simp [enqueue_job, hsetJob, expireJob, emptyStore, lookupA, setA, eraseAllA, aliveAt,
      emptyHash]
  have hAj : lookupA sA.jobs id = some (Entry.mk (JobHash.mk (some id) (some "pending")
      (some now0) (some (pyOr text)) (some (pyOr af)) (some (pyOr au)) none none)
      (some (now0 + ttlSeconds))) := by
    rw [hA]
    simp [lookupA]
  have hAr : sA.results = [] := by rw [hA]
  obtain ⟨hBj, hBr⟩ := update_job_status_spec sA now1 id "processing" none none
  obtain ⟨hCj, hCr⟩ := update_job_status_spec sB now2 id "completed" (some r) none
  obtain ⟨hDj, hDr⟩ := update_job_status_spec sB now2 id "failed" none (some e)
  rw [hAj] at hBj
  rw [hBj] at hCj hDj
  have hBerr : (updEntry (some (Entry.mk (JobHash.mk (some id) (some "pending") (some now0)
      (some (pyOr text)) (some (pyOr af)) (some (pyOr au)) none none)
      (some (now0 + ttlSeconds)))) now1 "processing" none none).val.error = none :=
    updEntry_error_falsy _ _ _ _ _ rfl (by intro en hen; cases hen; rfl)
  have hBresults : sB.results = [] := by
    rw [hBr]
    simp [truthyDict, hAr]
  refine ⟨?_, ?_, ?_, ?_⟩
  · exact invariantB_pending sA id _ hAj rfl rfl (by rw [hAr]; rfl)
  · exact invariantB_processing sB id _ hBj (updEntry_status _ _ _ _ _) hBerr
      (by rw [hBresults]; rfl)
  · refine invariantB_completed sC id _ hCj (updEntry_status _ _ _ _ _) ?_ ?_
    · exact updEntry_error_falsy _ _ _ _ _ rfl (by intro en hen; cases hen; exact hBerr)
    · rw [hCr]
      simp [htr, lookupA_setA_self]
  · refine invariantB_failed sD id _ hDj (updEntry_status _ _ _ _ _) e ?_ he ?_
    · exact updEntry_error_truthy _ _ _ _ _ hte
    · rw [hDr]
      simp [truthyDict, hBresults, lookupA]

/-- C8 witness: the lifecycle invariant instantiated on a concrete job. -/
theorem c8_lifecycle_payload_invariant_witness :
    recordInvariantB (enqueue_job emptyStore 0 "w" (some "t") none none).2 "w" = true ∧
    recordInvariantB (update_job_status (enqueue_job emptyStore 0 "w" (some "t") none
      none).2 1 "w" "processing" none none) "w" = true ∧
    recordInvariantB (update_job_status (update_job_status (enqueue_job emptyStore 0 "w"
      (some "t") none none).2 1 "w" "processing" none none) 2 "w" "completed"
      (some [("k", "v")]) none) "w" = true ∧
    recordInvariantB (update_job_status (update_job_status (enqueue_job emptyStore 0 "w"
      (some "t") none none).2 1 "w" "processing" none none) 2 "w" "failed" none
      (some "boom")) "w" = true :=
  c8_lifecycle_payload_invariant "w" (some "t") none none 0 1 2 [("k", "v")] "boom"
    (by decide) (by decide)

/-- C8 counterexample: between the two Redis commands of the completion
update of job `"j2"` — a state every concurrent reader can observe — the
record's status reads `completed` while no result record exists, so the
claimed every-point invariant fails. -/
theorem c8_invariant_broken_mid_completion :
    jobStatusField midStore8 "j2" = some (some "completed") ∧
    lookupA midStore8.results "j2" = none ∧
    recordInvariantB midStore8 "j2" = false := by
  decide

/-- C9 (amended): for every summary whose relevant conditions are all
non-empty AND whose symptom durations/severities are never the empty
string (Python truthiness drops an empty-string extension), the FHIR
round trip preserves the narrative summary, the relevant conditions in
order, and each symptom's (name, duration, severity) in order — while the
round-tripped `risk_factors` is always `[]` whatever the input's risk
factors were. -/
theorem c9_roundtrip_preserves_core_fields (cl : ClinicalSummary)
    (hc : ∀ c ∈ cl.relevant_conditions, c ≠ "")
    (hs : ∀ sym ∈ cl.symptoms, sym.duration ≠ some "" ∧ sym.severity ≠ some "") :
    (fhir_to_clinical_summary (clinical_summary_to_fhir cl)).narrative_summary =
      cl.narrative_summary ∧
    (fhir_to_clinical_summary (clinical_summary_to_fhir cl)).relevant_conditions =
      cl.relevant_conditions ∧
    (fhir_to_clinical_summary (clinical_summary_to_fhir cl)).symptoms.map symCore =
      cl.symptoms.map symCore ∧
    (fhir_to_clinical_summary (clinical_summary_to_fhir cl)).risk_factors = [] := by
  have hpat : ∀ l2 : List JVal,
      ((if truthyInt cl.patient_age || truthyStr cl.patient_gender then [patientEntry cl]
        else []) ++ l2).filterMap condOfEntry = l2.filterMap condOfEntry := by
    intro l2
    by_cases hp : (truthyInt cl.patient_age || truthyStr cl.patient_gender) = true <;>
      simp [hp, List.filterMap_cons, condOfEntry_patientEntry]
  have hpato : ∀ l2 : List JVal,
      ((if truthyInt cl.patient_age || truthyStr cl.patient_gender then [patientEntry cl]
        else []) ++ l2).filterMap obsOfEntry = l2.filterMap obsOfEntry := by
    intro l2
    by_cases hp : (truthyInt cl.patient_age || truthyStr cl.patient_gender) = true <;>
      simp [hp, List.filterMap_cons, obsOfEntry_patientEntry]
  have hpatf : ∀ l2 : List JVal,
      ((if truthyInt cl.patient_age || truthyStr cl.patient_gender then [patientEntry cl]
        else []) ++ l2).find? (isResType "ClinicalImpression") =
        l2.find? (isResType "ClinicalImpression") := by
    intro l2
    by_cases hp : (truthyInt cl.patient_age || truthyStr cl.patient_gender) = true <;>
      simp [hp, List.find?_cons, isResType_patientEntry]
  refine ⟨?_, ?_, ?_, rfl⟩
  · show (match (jgetList (clinical_summary_to_fhir cl) "entry").find?
        (isResType "ClinicalImpression") with
      | some entry => jgetStrD (resourceOf entry) "summary"
      | none => "") = cl.narrative_summary
    rw [entries_to_fhir, List.append_assoc, List.append_assoc, hpatf, List.find?_append,
      find?_imp_condEntries, List.find?_append, find?_imp_obsEntries]
    simp [List.find?_cons, isResType_impressionEntry, summary_impressionEntry]
  · show (jgetList (clinical_summary_to_fhir cl) "entry").filterMap condOfEntry =
      cl.relevant_conditions
    rw [entries_to_fhir, List.append_assoc, List.append_assoc, hpat, List.filterMap_append,
      List.filterMap_append, filterMap_cond_condEntries cl.relevant_conditions 0 hc,
      filterMap_cond_obsEntries]
    simp [List.filterMap_cons, condOfEntry_impressionEntry]
  · show ((jgetList (clinical_summary_to_fhir cl) "entry").filterMap obsOfEntry).map
        symCore = cl.symptoms.map symCore
    rw [entries_to_fhir, List.append_assoc, List.append_assoc, hpato, List.filterMap_append,
      List.filterMap_append, filterMap_obs_condEntries,
      filterMap_obs_obsEntries cl.symptoms 0 hs]
    simp [List.filterMap_cons, obsOfEntry_impressionEntry, List.map_map, symCore]

/-- C9 witness: the round trip on a concrete summary with one condition
and one fully populated symptom. -/
theorem c9_roundtrip_preserves_core_fields_witness :
    (fhir_to_clinical_summary (clinical_summary_to_fhir rtSummary)).narrative_summary =
      rtSummary.narrative_summary ∧
    (fhir_to_clinical_summary (clinical_summary_to_fhir rtSummary)).relevant_conditions =
      rtSummary.relevant_conditions ∧
    (fhir_to_clinical_summary (clinical_summary_to_fhir rtSummary)).symptoms.map symCore =
      rtSummary.symptoms.map symCore ∧
    (fhir_to_clinical_summary (clinical_summary_to_fhir rtSummary)).risk_factors = [] :=
  c9_roundtrip_preserves_core_fields rtSummary (by decide) (by decide)

/-- C9 counterexample: a symptom whose duration is present but is the
empty string round-trips to duration `none` (Python's truthiness check
skips the extension), so duration is not preserved for every summary as
the claim states. -/
theorem c9_empty_duration_dropped :
    (fhir_to_clinical_summary (clinical_summary_to_fhir badSummary)).symptoms.map
      Symptom.duration = [none] ∧
    badSummary.symptoms.map Symptom.duration = [some ""] := by
  decide

/-- C10: when the stored status reads `completed` but the result record is
absent, `get_result` neither 404s nor raises: it returns the job metadata
with status `completed` and no clinical summary attached. -/
theorem c10_completed_missing_result_returns_metadata (s : Store) (now : Nat) (id : String)
    (h : JobHash) (hj : aliveJob s now id = some h) (hst : h.status = some "completed")
    (hres : getResult s now id = none) :
    get_result s now id = GetResultOutcome.ok
      { job_id := id, status := "completed", clinical_summary := none,
        error := h.error, created_at := h.created_at, completed_at := h.completed_at } := by
  unfold get_result get_job_status
  rw [hj]
  simp [hst, hres, validStatuses]

/-- C10 witness: the theorem applied to a store with a completed record
and no result record. -/
theorem c10_completed_missing_result_returns_metadata_witness :
    aliveJob orphanStore 10 "j2" = some orphanHash ∧
    get_result orphanStore 10 "j2" = GetResultOutcome.ok
      { job_id := "j2", status := "completed", clinical_summary := none,
        error := none, created_at := some 0, completed_at := none } :=
  ⟨by decide,
   c10_completed_missing_result_returns_metadata orphanStore 10 "j2" orphanHash
     (by decide) rfl rfl⟩
